import Mathlib

/-!
Verification development for the indicator-synchronization subsystem of
`src/preload.cjs` (WorldData desktop shell).  The relevant host-process
functions — `getIndicatorsDir`, `readInstalledIndicatorVersion`,
`performDownloadIndicators`, the keytar-backed token handlers and the
decision head of `checkAndUpdateIndicators` — are shallowly embedded as
pure Lean functions over an explicit environment (remote responses,
probe outcomes) and an explicit filesystem state, with renderer events
and network calls recorded in an ordered trace.
-/

namespace WorldData

/-- One entry of the remote recursive tree listing, `{path, type}`. -/
structure TreeEntry where
  path : String
  type : String
deriving DecidableEq, Repr

/-- Outcome of one per-file content fetch (`fetchJson(contentUrl)`):
the JSON resolved with a `content` field, resolved without one
(`errors.push({path, error: 'no content'})` branch), or the request /
parse rejected with a message. -/
inductive FetchOutcome where
  | ok (content : String)
  | noContent
  | err (msg : String)
deriving DecidableEq, Repr

/-- Outcome of the recursive tree listing (`fetchJson(api)`): a parsed
response carrying a `tree` array, a parsed response without one
(`'no tree'` branch), or a rejection (network error, timeout, JSON
parse failure) that lands in the surrounding `catch`. -/
inductive ListOutcome where
  | tree (entries : List TreeEntry)
  | noTree
  | err (msg : String)
deriving DecidableEq, Repr

/-- Per-call environment of `getIndicatorsDir`: the process-constant
`isDev` flag and directory strings, plus `installProbeOk`, the outcome
of this call's mkdir + write-probe of the install-adjacent candidate
directory (the probe really runs on every call; there is no cache). -/
structure DirEnv where
  isDev : Bool
  execDir : String
  userDataDir : String
  installProbeOk : Bool
deriving DecidableEq, Repr

/-- Environment of one sync pass: directory resolution inputs, the
listing outcome, and the outcome of each per-file fetch keyed by the
repository-relative path. -/
structure Env where
  dirEnv : DirEnv
  listing : ListOutcome
  fetchFile : String → FetchOutcome

/-- The options object of `performDownloadIndicators`.  In the source,
`(opts && opts.owner) || ''` collapses a missing field and the empty
string, so `owner`/`repo`/`branch` are plain strings with `""` standing
for "missing"; `version` keeps the `Option` since `opts.version` is
tested for JS truthiness separately. -/
structure Opts where
  owner : String
  repo : String
  branch : String
  version : Option String
deriving DecidableEq, Repr

/-- Local filesystem state touched by the subsystem: the set of
directories that exist, the indicator files (absolute path, content),
and the content of the `indicator_version` marker file (`none` =
absent). -/
structure FS where
  dirs : List String
  files : List (String × String)
  marker : Option String
deriving DecidableEq, Repr

/-- The `SyncResult` value returned by `performDownloadIndicators`:
`{success: true, downloaded, errors, dir}` on a completed pass, or
`{success: false, error}` on a configuration or listing failure. -/
inductive Result where
  | ok (downloaded : Nat) (errors : List (String × String)) (dir : String)
  | fail (error : String)
deriving DecidableEq, Repr

/-- Trace items of one pass: the two kinds of network request and the
three renderer-bound events (`indicators-download-start`,
`indicators-download-progress`, `indicators-download-complete`). -/
inductive Ev where
  | netList (url : String)
  | netFile (url : String)
  | evStart (total : Nat)
  | evProgress (current : Nat) (total : Nat) (path : String)
  | evComplete (r : Result)
deriving DecidableEq, Repr

/-- The whitespace characters removed by JS `String.prototype.trim`
(restricted to the ASCII whitespace actually occurring in version
markers). -/
def isJsWhitespace (ch : Char) : Bool :=
  ch == ' ' || ch == '\t' || ch == '\n' || ch == '\r'

/-- JS `String.prototype.trim`: drop leading and trailing
whitespace. -/
def jsTrim (s : String) : String :=
  String.mk (((s.data.dropWhile isJsWhitespace).reverse.dropWhile isJsWhitespace).reverse)

/-- JS `String.prototype.toLowerCase` (ASCII case folding). -/
def jsToLower (s : String) : String :=
  String.mk (s.data.map Char.toLower)

/-- JS `String.prototype.startsWith`. -/
def jsStartsWith (s pre : String) : Bool :=
  pre.data.isPrefixOf s.data

/-- JS `String.prototype.endsWith`. -/
def jsEndsWith (s suf : String) : Bool :=
  suf.data.reverse.isPrefixOf s.data.reverse

/-- `getIndicatorsDir` (src/preload.cjs:274–302): in production with a
nonempty executable directory and a successful writability probe, use
the install-adjacent `indicators` directory, otherwise fall back to the
per-user `userData/indicators` directory.  The function re-probes on
every call; its value is a pure function of this call's `DirEnv`. -/
def getIndicatorsDir (d : DirEnv) : String :=
  if d.isDev = false ∧ d.execDir ≠ "" ∧ d.installProbeOk = true then
    d.execDir ++ "/indicators"
  else
    d.userDataDir ++ "/indicators"

/-- `readInstalledIndicatorVersion` (src/preload.cjs:304–314) applied to
the raw content of the marker file: a missing or unreadable file gives
`null`; otherwise the text is trimmed and `'' || null` makes an empty
trimmed string read as `null` too. -/
def readInstalledIndicatorVersion (markerFile : Option String) : Option String :=
  match markerFile with
  | none => none
  | some txt => if jsTrim txt = "" then none else some (jsTrim txt)

/-- The decision head of `checkAndUpdateIndicators`
(src/preload.cjs:573–592): `fetchText` resolves the trimmed response
body (`none` = request error); a falsy (empty) remote version aborts;
otherwise the pass is triggered unless `installedVer === remoteVer`. -/
def checkAndUpdateIndicatorsTriggers (remoteFetch : Option String) (markerFile : Option String) : Bool :=
  match remoteFetch with
  | none => false
  | some raw =>
    let remoteVer := jsTrim raw
    if remoteVer = "" then false
    else !(readInstalledIndicatorVersion markerFile == some remoteVer)

/-- The candidate filter of `performDownloadIndicators`
(src/preload.cjs:426–429): keep entries with `type === 'blob'`, path
starting with `'indicators/'`, and lowercased path ending in
`'.json'`. -/
def isIndicatorJsonBlob (e : TreeEntry) : Bool :=
  e.type == "blob" && jsStartsWith e.path "indicators/" && jsEndsWith (jsToLower e.path) ".json"

/-- `fs.mkdirSync(dir, {recursive: true})`: creates the directory if it
is not already present, otherwise leaves the state unchanged. -/
def insertDir (d : String) (ds : List String) : List String :=
  if ds.contains d then ds else ds ++ [d]

/-- `fs.writeFileSync(p, c)`: overwrite the file if present, append it
otherwise. -/
def setFile (files : List (String × String)) (p c : String) : List (String × String) :=
  if files.any (fun kv => kv.1 == p) then
    files.map (fun kv => if kv.1 == p then (p, c) else kv)
  else
    files ++ [(p, c)]

/-- `path.dirname` for forward-slash paths, as used on `outPath`. -/
def dirnameOf (p : String) : String :=
  match (p.data.reverse.dropWhile (fun ch => !(ch == '/'))) with
  | [] => "."
  | _ :: rest => String.mk rest.reverse

/-- The per-file content URL (src/preload.cjs:445), modulo URI escaping
of the path component. -/
def contentUrlOf (owner repo branch p : String) : String :=
  "https://api.github.com/repos/" ++ owner ++ "/" ++ repo ++ "/contents/" ++ p ++ "?ref=" ++ branch

/-- The tree-listing URL (src/preload.cjs:402). -/
def treeApiOf (owner repo branch : String) : String :=
  "https://api.github.com/repos/" ++ owner ++ "/" ++ repo ++ "/git/trees/" ++ branch ++ "?recursive=1"

/-- Accumulator of the download loop (src/preload.cjs:441–466): the
`downloaded` and `errors` arrays, the filesystem, and the trace so
far. -/
structure LoopState where
  downloaded : List String
  errors : List (String × String)
  fs : FS
  evs : List Ev
deriving Repr

/-- The `for (const item of jsonFiles)` loop (src/preload.cjs:441–466).
`iPrev` is the value of the counter `i` before the iteration; it is
incremented at the top of every iteration, so the progress event of the
k-th candidate (1-based, counting all candidates) carries `current = k`.
On a successful fetch the file is written (parent directory ensured)
and a progress event is sent; on `noContent` or a rejection an error
entry is appended and no progress event is sent. -/
def downloadLoop (env : Env) (owner repo branch dir : String) (total : Nat) :
    Nat → List TreeEntry → LoopState → LoopState
  | _, [], st => st
  | iPrev, item :: rest, st =>
    let i := iPrev + 1
    let url := contentUrlOf owner repo branch item.path
    let st1 : LoopState := { st with evs := st.evs ++ [Ev.netFile url] }
    let st2 : LoopState :=
      match env.fetchFile item.path with
      | FetchOutcome.ok content =>
        let outPath := dir ++ "/" ++ item.path
        { downloaded := st1.downloaded ++ [item.path]
          errors := st1.errors
          fs := { dirs := insertDir (dirnameOf outPath) st1.fs.dirs
                  files := setFile st1.fs.files outPath content
                  marker := st1.fs.marker }
          evs := st1.evs ++ [Ev.evProgress i total item.path] }
      | FetchOutcome.noContent =>
        { st1 with errors := st1.errors ++ [(item.path, "no content")] }
      | FetchOutcome.err m =>
        { st1 with errors := st1.errors ++ [(item.path, m)] }
    downloadLoop env owner repo branch dir total i rest st2

/-- `performDownloadIndicators` (src/preload.cjs:383–488), as a pure
function of the pass environment, the options and the initial
filesystem, returning the `SyncResult`, the ordered trace of network
calls and renderer events, and the final filesystem.  Faithful order of
effects: the owner/repo guard runs before anything else; the indicators
directory is resolved and created before the listing request; on a
listing rejection the `catch` block sends a failing complete event,
while a parsed response without a `tree` field returns `'no tree'`
without a complete event; the version marker is written exactly when
`opts.version` is JS-truthy, regardless of per-file errors. -/
def performDownloadIndicators (env : Env) (opts : Opts) (fs0 : FS) :
    Result × List Ev × FS :=
  let owner := opts.owner
  let repo := opts.repo
  let branch := if opts.branch = "" then "main" else opts.branch
  if owner = "" ∨ repo = "" then
    (Result.fail "missing owner or repo", [], fs0)
  else
    let dir := getIndicatorsDir env.dirEnv
    let fs1 : FS := { fs0 with dirs := insertDir dir fs0.dirs }
    let api := treeApiOf owner repo branch
    match env.listing with
    | ListOutcome.err m =>
      (Result.fail m, [Ev.netList api, Ev.evComplete (Result.fail m)], fs1)
    | ListOutcome.noTree =>
      (Result.fail "no tree", [Ev.netList api], fs1)
    | ListOutcome.tree entries =>
      let jsonFiles := entries.filter isIndicatorJsonBlob
      let total := jsonFiles.length
      let st0 : LoopState := ⟨[], [], fs1, [Ev.netList api, Ev.evStart total]⟩
      let st := downloadLoop env owner repo branch dir total 0 jsonFiles st0
      let fs2 : FS :=
        match opts.version with
        | some v => if v = "" then st.fs else { st.fs with marker := some v }
        | none => st.fs
      let res := Result.ok st.downloaded.length st.errors dir
      (res, st.evs ++ [Ev.evComplete res], fs2)

/-- Outcome of one call into the keytar backend: the resolved value, or
a thrown exception. -/
inductive KeytarCall (A : Type) where
  | ok (val : A)
  | err (msg : String)
deriving DecidableEq, Repr

/-- The `store-indicator-token` handler (src/preload.cjs:351–360):
`false` when keytar is unavailable, `true` when `setPassword` resolves,
`false` when it throws. -/
def storeIndicatorToken (keytar : Option (KeytarCall Unit)) (_token : String) : Bool :=
  match keytar with
  | none => false
  | some (KeytarCall.ok _) => true
  | some (KeytarCall.err _) => false

/-- The `get-indicator-token` handler (src/preload.cjs:362–370): `null`
when keytar is unavailable, the stored value when `getPassword`
resolves, `null` when it throws. -/
def getIndicatorToken (keytar : Option (KeytarCall (Option String))) : Option String :=
  match keytar with
  | none => none
  | some (KeytarCall.ok v) => v
  | some (KeytarCall.err _) => none

/-- The `delete-indicator-token` handler (src/preload.cjs:372–380):
`false` when keytar is unavailable, the boolean `deletePassword`
resolves with on success, `false` when it throws. -/
def deleteIndicatorToken (keytar : Option (KeytarCall Bool)) : Bool :=
  match keytar with
  | none => false
  | some (KeytarCall.ok b) => b
  | some (KeytarCall.err _) => false

/-! Derived descriptions of the download loop, used to characterize
`downloadLoop` field by field. -/

/-- Whether the per-file step of a candidate fails (fetch rejection or a
response without `content`; in both cases an error entry is recorded and
no file is written). -/
def fetchFails (f : String → FetchOutcome) (e : TreeEntry) : Bool :=
  match f e.path with
  | FetchOutcome.ok _ => false
  | _ => true

/-- The `downloaded` array produced by the loop: the paths of the
candidates whose fetch succeeded, in order. -/
def loopDownloadedPaths (f : String → FetchOutcome) (items : List TreeEntry) : List String :=
  items.filterMap (fun e =>
    match f e.path with
    | FetchOutcome.ok _ => some e.path
    | _ => none)

/-- The `errors` array produced by the loop: one `(path, error)` entry
per failed candidate, in order. -/
def loopErrors (f : String → FetchOutcome) (items : List TreeEntry) : List (String × String) :=
  items.filterMap (fun e =>
    match f e.path with
    | FetchOutcome.ok _ => none
    | FetchOutcome.noContent => some (e.path, "no content")
    | FetchOutcome.err m => some (e.path, m))

/-- The trace emitted by the loop: a content request per candidate,
followed by a progress event when the candidate succeeds; `iPrev` is
the counter value before the first listed candidate. -/
def loopEvs (f : String → FetchOutcome) (owner repo branch : String) (total : Nat) :
    Nat → List TreeEntry → List Ev
  | _, [] => []
  | iPrev, item :: rest =>
    (match f item.path with
     | FetchOutcome.ok _ =>
       [Ev.netFile (contentUrlOf owner repo branch item.path),
        Ev.evProgress (iPrev + 1) total item.path]
     | _ => [Ev.netFile (contentUrlOf owner repo branch item.path)]) ++
    loopEvs f owner repo branch total (iPrev + 1) rest

/-- The renderer-visible progress events of the loop alone. -/
def loopProgressEvs (f : String → FetchOutcome) (total : Nat) :
    Nat → List TreeEntry → List Ev
  | _, [] => []
  | iPrev, item :: rest =>
    (match f item.path with
     | FetchOutcome.ok _ => [Ev.evProgress (iPrev + 1) total item.path]
     | _ => []) ++
    loopProgressEvs f total (iPrev + 1) rest

/-- The filesystem after the loop: each successful candidate has its
parent directory ensured and its content written; failures leave the
filesystem untouched; the version marker is never written by the
loop. -/
def loopFS (f : String → FetchOutcome) (dir : String) : List TreeEntry → FS → FS
  | [], fs => fs
  | item :: rest, fs =>
    let fs1 : FS :=
      match f item.path with
      | FetchOutcome.ok content =>
        { dirs := insertDir (dirnameOf (dir ++ "/" ++ item.path)) fs.dirs
          files := setFile fs.files (dir ++ "/" ++ item.path) content
          marker := fs.marker }
      | _ => fs
    loopFS f dir rest fs1

/-- Events visible to the renderer (start, progress, complete), in
order, with the network requests dropped from the trace. -/
def isUiEvent : Ev → Bool
  | Ev.netList _ => false
  | Ev.netFile _ => false
  | _ => true

/-- The renderer-visible subsequence of a trace. -/
def uiEvents (evs : List Ev) : List Ev := evs.filter isUiEvent

/-! Concrete fixtures used by witnesses and counterexamples. -/

/-- A development-mode directory environment (resolves to userData). -/
def devDirEnv : DirEnv := ⟨true, "", "/ud", false⟩

/-- The spec's end-to-end remote tree: two matching blobs and one
non-matching blob. -/
def scenarioTree : List TreeEntry :=
  [⟨"indicators/a.json", "blob"⟩, ⟨"readme.md", "blob"⟩, ⟨"indicators/b.json", "blob"⟩]

/-- Environment for the end-to-end scenario: listing succeeds with
`scenarioTree` and every content fetch succeeds. -/
def scenarioEnv : Env :=
  ⟨devDirEnv, ListOutcome.tree scenarioTree, fun _ => FetchOutcome.ok "data"⟩

/-- Environment in which the fetch of `indicators/a.json` rejects while
every other fetch succeeds, over a two-candidate tree. -/
def oneFailEnv : Env :=
  ⟨devDirEnv,
   ListOutcome.tree [⟨"indicators/a.json", "blob"⟩, ⟨"indicators/b.json", "blob"⟩],
   fun p => if p = "indicators/a.json" then FetchOutcome.err "boom" else FetchOutcome.ok "data"⟩

/-- Environment whose tree listing request rejects with a timeout. -/
def listFailEnv : Env :=
  ⟨devDirEnv, ListOutcome.err "timeout", fun _ => FetchOutcome.ok "data"⟩

/-- Options used by the concrete scenarios. -/
def scenarioOpts : Opts := ⟨"o", "r", "main", some "v2"⟩

/-- An empty initial filesystem. -/
def emptyFS : FS := ⟨[], [], none⟩

/-! Characterization of the download loop, one field at a time. -/

lemma downloadLoop_eq (env : Env) (owner repo branch dir : String) (total : Nat) :
    ∀ (items : List TreeEntry) (iPrev : Nat) (st : LoopState),
    downloadLoop env owner repo branch dir total iPrev items st =
      ⟨st.downloaded ++ loopDownloadedPaths env.fetchFile items,
       st.errors ++ loopErrors env.fetchFile items,
       loopFS env.fetchFile dir items st.fs,
       st.evs ++ loopEvs env.fetchFile owner repo branch total iPrev items⟩ := by
  intro items
  induction items with
  | nil =>
    intro iPrev st
    simp [downloadLoop, loopDownloadedPaths, loopErrors, loopFS, loopEvs]
  | cons item rest ih =>
    intro iPrev st
    cases hf : env.fetchFile item.path with
    | ok content =>
      simp [downloadLoop, hf, ih, loopDownloadedPaths, loopErrors, loopFS, loopEvs,
        List.append_assoc]
    | noContent =>
      simp [downloadLoop, hf, ih, loopDownloadedPaths, loopErrors, loopFS, loopEvs,
        List.append_assoc]
    | err m =>
      simp [downloadLoop, hf, ih, loopDownloadedPaths, loopErrors, loopFS, loopEvs,
        List.append_assoc]

lemma loopFS_marker (f : String → FetchOutcome) (dir : String) :
    ∀ (items : List TreeEntry) (fs : FS), (loopFS f dir items fs).marker = fs.marker := by
  intro items
  induction items with
  | nil => intro fs; rfl
  | cons item rest ih =>
    intro fs
    cases hf : f item.path with
    | ok content => simp [loopFS, hf, ih]
    | noContent => simp [loopFS, hf, ih]
    | err m => simp [loopFS, hf, ih]

lemma loopCounts (f : String → FetchOutcome) :
    ∀ items : List TreeEntry,
    (loopDownloadedPaths f items).length + (loopErrors f items).length = items.length := by
  intro items
  induction items with
  | nil => simp [loopDownloadedPaths, loopErrors]
  | cons item rest ih =>
    cases hf : f item.path with
    | ok content => simp [loopDownloadedPaths, loopErrors, hf] at ih ⊢; omega
    | noContent => simp [loopDownloadedPaths, loopErrors, hf] at ih ⊢; omega
    | err m => simp [loopDownloadedPaths, loopErrors, hf] at ih ⊢; omega

lemma loopErrors_length (f : String → FetchOutcome) :
    ∀ items : List TreeEntry,
    (loopErrors f items).length = (items.filter (fetchFails f)).length := by
  intro items
  induction items with
  | nil => rfl
  | cons item rest ih =>
    cases hf : f item.path with
    | ok content => simp [loopErrors, List.filter, fetchFails, hf] at ih ⊢; omega
    | noContent => simp [loopErrors, List.filter, fetchFails, hf] at ih ⊢; omega
    | err m => simp [loopErrors, List.filter, fetchFails, hf] at ih ⊢; omega

lemma uiEvents_loopEvs (f : String → FetchOutcome) (owner repo branch : String) (total : Nat) :
    ∀ (items : List TreeEntry) (iPrev : Nat),
    uiEvents (loopEvs f owner repo branch total iPrev items) =
      loopProgressEvs f total iPrev items := by
  intro items
  induction items with
  | nil => intro iPrev; rfl
  | cons item rest ih =>
    intro iPrev
    have ih' := ih (iPrev + 1)
    simp only [uiEvents] at ih' ⊢
    cases hf : f item.path with
    | ok content => simp [loopEvs, loopProgressEvs, hf, isUiEvent, ih']
    | noContent => simp [loopEvs, loopProgressEvs, hf, isUiEvent, ih']
    | err m => simp [loopEvs, loopProgressEvs, hf, isUiEvent, ih']

lemma loopProgressEvs_length (f : String → FetchOutcome) (total : Nat) :
    ∀ (items : List TreeEntry) (iPrev : Nat),
    (loopProgressEvs f total iPrev items).length = (loopDownloadedPaths f items).length := by
  intro items
  induction items with
  | nil => intro iPrev; rfl
  | cons item rest ih =>
    intro iPrev
    cases hf : f item.path with
    | ok content => simp [loopProgressEvs, loopDownloadedPaths, hf, ih iPrev.succ]
    | noContent => simp [loopProgressEvs, loopDownloadedPaths, hf, ih iPrev.succ]
    | err m => simp [loopProgressEvs, loopDownloadedPaths, hf, ih iPrev.succ]

lemma loopProgressEvs_mem (f : String → FetchOutcome) (total : Nat) (c t : Nat) (p : String) :
    ∀ (items : List TreeEntry) (iPrev : Nat),
    (Ev.evProgress c t p ∈ loopProgressEvs f total iPrev items ↔
      (t = total ∧ ∃ k item, items.get? k = some item ∧ p = item.path ∧
        c = iPrev + k + 1 ∧ ∃ content, f item.path = FetchOutcome.ok content)) := by
  intro items
  induction items with
  | nil =>
    intro iPrev
    simp [loopProgressEvs]
  | cons item rest ih =>
    intro iPrev
    cases hf : f item.path with
    | ok content =>
      simp only [loopProgressEvs, hf, List.singleton_append, List.mem_cons,
        Ev.evProgress.injEq, ih iPrev.succ]
      constructor
      · rintro (⟨hc, ht, hp⟩ | ⟨ht, k, item', hk, hp, hc, hok⟩)
        · exact ⟨ht, 0, item, rfl, hp, by omega, ⟨content, hf⟩⟩
        · exact ⟨ht, k + 1, item', by simpa using hk, hp, by omega, hok⟩
      · rintro ⟨ht, k, item', hk, hp, hc, hok⟩
        cases k with
        | zero =>
          left
          simp only [List.get?_cons_zero, Option.some.injEq] at hk
          subst hk
          exact ⟨by omega, ht, hp⟩
        | succ k =>
          right
          exact ⟨ht, k, item', by simpa using hk, hp, by omega, hok⟩
    | noContent =>
      simp only [loopProgressEvs, hf, List.nil_append, ih iPrev.succ]
      constructor
      · rintro ⟨ht, k, item', hk, hp, hc, hok⟩
        exact ⟨ht, k + 1, item', by simpa using hk, hp, by omega, hok⟩
      · rintro ⟨ht, k, item', hk, hp, hc, hok⟩
        cases k with
        | zero =>
          simp only [List.get?_cons_zero, Option.some.injEq] at hk
          subst hk
          rcases hok with ⟨content, hok⟩
          rw [hf] at hok
          exact absurd hok (by simp)
        | succ k =>
          exact ⟨ht, k, item', by simpa using hk, hp, by omega, hok⟩
    | err m =>
      simp only [loopProgressEvs, hf, List.nil_append, ih iPrev.succ]
      constructor
      · rintro ⟨ht, k, item', hk, hp, hc, hok⟩
        exact ⟨ht, k + 1, item', by simpa using hk, hp, by omega, hok⟩
      · rintro ⟨ht, k, item', hk, hp, hc, hok⟩
        cases k with
        | zero =>
          simp only [List.get?_cons_zero, Option.some.injEq] at hk
          subst hk
          rcases hok with ⟨content, hok⟩
          rw [hf] at hok
          exact absurd hok (by simp)
        | succ k =>
          exact ⟨ht, k, item', by simpa using hk, hp, by omega, hok⟩

lemma evProgress_mem_loopEvs (f : String → FetchOutcome) (owner repo branch : String)
    (total iPrev : Nat) (items : List TreeEntry) (c t : Nat) (p : String) :
    (Ev.evProgress c t p ∈ loopEvs f owner repo branch total iPrev items ↔
      Ev.evProgress c t p ∈ loopProgressEvs f total iPrev items) := by
  rw [← uiEvents_loopEvs f owner repo branch total items iPrev]
  simp [uiEvents, List.mem_filter, isUiEvent]

/-! Claim theorems. -/

/-- C3: given any remote tree listing with mixed entries, the
candidate-file filter returns exactly the entries whose type is
`"blob"`, whose path starts with `"indicators/"`, and whose lowercased
path ends with `".json"`, in the same relative order as they appear in
the input tree (the filtered list is a sublist of the input). -/
theorem c3_candidate_filter (t : List TreeEntry) :
    (∀ e : TreeEntry, e ∈ t.filter isIndicatorJsonBlob ↔
      (e ∈ t ∧ e.type = "blob" ∧ jsStartsWith e.path "indicators/" = true ∧
        jsEndsWith (jsToLower e.path) ".json" = true)) ∧
    (t.filter isIndicatorJsonBlob).Sublist t := by
  refine ⟨fun e => ?_, List.filter_sublist t⟩
  simp [List.mem_filter, isIndicatorJsonBlob, and_assoc]

/-- C2: for every successfully fetched remote version (a body that is
nonempty after trimming), the automatic check triggers a sync pass
exactly when the trimmed installed version differs from the trimmed
remote version (strict, case-sensitive string equality), and a missing
local marker (`null` installed version) always triggers a sync. -/
theorem c2_version_comparison (markerFile : Option String) (raw : String)
    (h : jsTrim raw ≠ "") :
    (checkAndUpdateIndicatorsTriggers (some raw) markerFile = true ↔
      readInstalledIndicatorVersion markerFile ≠ some (jsTrim raw)) ∧
    checkAndUpdateIndicatorsTriggers (some raw) none = true := by
  constructor
  · simp [checkAndUpdateIndicatorsTriggers, h]
  · simp [checkAndUpdateIndicatorsTriggers, h, readInstalledIndicatorVersion]

/-- Witness for C2 at a concrete remote version and a missing local
marker. -/
theorem c2_version_comparison_witness :
    jsTrim "v2" ≠ "" ∧ checkAndUpdateIndicatorsTriggers (some "v2") none = true :=
  ⟨by decide, (c2_version_comparison none "v2" (by decide)).2⟩

/-- C4: with a missing or empty owner or repo, `performDownloadIndicators`
returns the configuration failure result immediately: the trace is empty
(no network request, no event) and the filesystem is untouched. -/
theorem c4_missing_config (env : Env) (opts : Opts) (fs0 : FS)
    (h : opts.owner = "" ∨ opts.repo = "") :
    performDownloadIndicators env opts fs0 =
      (Result.fail "missing owner or repo", [], fs0) := by
  rcases h with h | h <;> simp [performDownloadIndicators, h]

/-- Witness for C4: calling with an empty owner fails fast with no
trace. -/
theorem c4_missing_config_witness :
    performDownloadIndicators listFailEnv ⟨"", "r", "main", none⟩ emptyFS =
      (Result.fail "missing owner or repo", [], emptyFS) :=
  c4_missing_config listFailEnv ⟨"", "r", "main", none⟩ emptyFS (Or.inl rfl)

/-- C7: every credential operation degrades softly: with keytar absent,
store returns `false`, retrieve returns `null` and erase returns
`false`; with keytar present but throwing, the exception is caught and
the same values are returned. -/
theorem c7_credential_soft_fail :
    (∀ tok : String, storeIndicatorToken none tok = false) ∧
    getIndicatorToken none = none ∧
    deleteIndicatorToken none = false ∧
    (∀ tok m : String, storeIndicatorToken (some (KeytarCall.err m)) tok = false) ∧
    (∀ m : String, getIndicatorToken (some (KeytarCall.err m)) = none) ∧
    (∀ m : String, deleteIndicatorToken (some (KeytarCall.err m)) = false) :=
  ⟨fun _ => rfl, rfl, rfl, fun _ _ => rfl, fun _ => rfl, fun _ => rfl⟩

/-- C8 counterexample: two calls within one process run (identical
build mode, executable directory and user-data directory) whose
writability probe outcomes differ resolve to different directories, so
the first successful resolution is not memoized process-wide. -/
theorem c8_memoization_counterexample :
    (DirEnv.mk false "/opt/app" "/ud" true).isDev =
      (DirEnv.mk false "/opt/app" "/ud" false).isDev ∧
    (DirEnv.mk false "/opt/app" "/ud" true).execDir =
      (DirEnv.mk false "/opt/app" "/ud" false).execDir ∧
    (DirEnv.mk false "/opt/app" "/ud" true).userDataDir =
      (DirEnv.mk false "/opt/app" "/ud" false).userDataDir ∧
    getIndicatorsDir (DirEnv.mk false "/opt/app" "/ud" true) ≠
      getIndicatorsDir (DirEnv.mk false "/opt/app" "/ud" false) := by
  refine ⟨rfl, rfl, rfl, ?_⟩
  decide

/-- C8 (amended): `getIndicatorsDir` is not memoized; it is a
deterministic per-call function of the build mode, executable
directory, user-data directory and that call's probe outcome, so two
calls agree whenever those four inputs agree, and in development mode
the choice is always the user-data directory regardless of the
probe. -/
theorem c8_resolution_probe_determined (d1 d2 : DirEnv)
    (h1 : d1.isDev = d2.isDev) (h2 : d1.execDir = d2.execDir)
    (h3 : d1.userDataDir = d2.userDataDir)
    (h4 : d1.installProbeOk = d2.installProbeOk) :
    getIndicatorsDir d1 = getIndicatorsDir d2 ∧
    (∀ d : DirEnv, d.isDev = true → getIndicatorsDir d = d.userDataDir ++ "/indicators") := by
  constructor
  · have hd : d1 = d2 := by cases d1; cases d2; simp_all
    rw [hd]
  · intro d hd
    simp [getIndicatorsDir, hd]

/-- Witness for the amended C8 at concrete environments. -/
theorem c8_resolution_probe_determined_witness :
    getIndicatorsDir ⟨false, "/opt/app", "/ud", true⟩ =
      getIndicatorsDir ⟨false, "/opt/app", "/ud", true⟩ ∧
    getIndicatorsDir devDirEnv = "/ud/indicators" := by
  have h := c8_resolution_probe_determined ⟨false, "/opt/app", "/ud", true⟩
      ⟨false, "/opt/app", "/ud", true⟩ rfl rfl rfl rfl
  exact ⟨h.1, (h.2 devDirEnv rfl).trans (by decide)⟩

/-- C1: for a pass over M candidate files of which N per-file fetches
fail (owner/repo nonempty, listing successful), the result is a success
(`Result.ok`) with `downloaded = M - N` and an error list of length N,
and when a nonempty version string was supplied the version marker is
written to it despite the per-file failures. -/
theorem c1_partial_failure (env : Env) (opts : Opts) (fs0 : FS) (entries : List TreeEntry)
    (hO : opts.owner ≠ "") (hR : opts.repo ≠ "")
    (hL : env.listing = ListOutcome.tree entries)
    (v : String) (hv : opts.version = some v) (hne : v ≠ "") :
    (performDownloadIndicators env opts fs0).1 =
      Result.ok
        ((entries.filter isIndicatorJsonBlob).length -
          ((entries.filter isIndicatorJsonBlob).filter (fetchFails env.fetchFile)).length)
        (loopErrors env.fetchFile (entries.filter isIndicatorJsonBlob))
        (getIndicatorsDir env.dirEnv) ∧
    (loopErrors env.fetchFile (entries.filter isIndicatorJsonBlob)).length =
      ((entries.filter isIndicatorJsonBlob).filter (fetchFails env.fetchFile)).length ∧
    (performDownloadIndicators env opts fs0).2.2.marker = some v := by
  have hcond : ¬(opts.owner = "" ∨ opts.repo = "") := fun hh => hh.elim hO hR
  have hlen := loopCounts env.fetchFile (entries.filter isIndicatorJsonBlob)
  have herr := loopErrors_length env.fetchFile (entries.filter isIndicatorJsonBlob)
  simp only [performDownloadIndicators, hL, hv, if_neg hcond, if_neg hne, downloadLoop_eq,
    List.nil_append]
  refine ⟨?_, herr, ?_⟩
  · congr 1
    omega
  · trivial

/-- Witness for C1: two candidates, the fetch of the first rejects, a
version string is supplied; the result reports one download and one
error yet succeeds, and the marker is written. -/
theorem c1_partial_failure_witness :
    (performDownloadIndicators oneFailEnv scenarioOpts emptyFS).1 =
      Result.ok 1 [("indicators/a.json", "boom")] "/ud/indicators" ∧
    (performDownloadIndicators oneFailEnv scenarioOpts emptyFS).2.2.marker = some "v2" := by
  have h := c1_partial_failure oneFailEnv scenarioOpts emptyFS
      [⟨"indicators/a.json", "blob"⟩, ⟨"indicators/b.json", "blob"⟩]
      (by decide) (by decide) rfl "v2" rfl (by decide)
  exact ⟨h.1.trans (by decide), h.2.2⟩

/-- C5 counterexample: a pass whose tree listing rejects returns a
top-level failure, yet the filesystem's directory state was modified by
the failed pass — the indicators directory was created (it did not
exist beforehand), refuting "no directory state is modified by the
failed pass". -/
theorem c5_counterexample :
    (performDownloadIndicators listFailEnv scenarioOpts emptyFS).1 = Result.fail "timeout" ∧
    (performDownloadIndicators listFailEnv scenarioOpts emptyFS).2.2.dirs = ["/ud/indicators"] ∧
    emptyFS.dirs = [] := by
  decide

/-- C5 (amended): if the tree listing fails (rejection or a response
without the expected `tree` collection), the pass aborts with a
top-level failure result, and no indicator file is written and the
version marker is unchanged — but the indicators directory itself is
resolved and created before the listing, so the directory set may
differ by that one new directory. -/
theorem c5_listing_failure_aborts (env : Env) (opts : Opts) (fs0 : FS)
    (hO : opts.owner ≠ "") (hR : opts.repo ≠ "")
    (hL : ∀ entries, env.listing ≠ ListOutcome.tree entries) :
    (∃ m, (performDownloadIndicators env opts fs0).1 = Result.fail m) ∧
    (performDownloadIndicators env opts fs0).2.2.files = fs0.files ∧
    (performDownloadIndicators env opts fs0).2.2.marker = fs0.marker ∧
    (performDownloadIndicators env opts fs0).2.2.dirs =
      insertDir (getIndicatorsDir env.dirEnv) fs0.dirs := by
  have hcond : ¬(opts.owner = "" ∨ opts.repo = "") := fun hh => hh.elim hO hR
  cases hls : env.listing with
  | tree entries => exact absurd hls (hL entries)
  | noTree =>
    simp only [performDownloadIndicators, hls, if_neg hcond]
    refine ⟨⟨"no tree", ?_⟩, ?_, ?_, ?_⟩ <;> trivial
  | err m =>
    simp only [performDownloadIndicators, hls, if_neg hcond]
    refine ⟨⟨m, ?_⟩, ?_, ?_, ?_⟩ <;> trivial

/-- Witness for the amended C5 at a concrete failing listing. -/
theorem c5_listing_failure_aborts_witness :
    (∃ m, (performDownloadIndicators listFailEnv scenarioOpts emptyFS).1 = Result.fail m) ∧
    (performDownloadIndicators listFailEnv scenarioOpts emptyFS).2.2.files = emptyFS.files ∧
    (performDownloadIndicators listFailEnv scenarioOpts emptyFS).2.2.marker = emptyFS.marker ∧
    (performDownloadIndicators listFailEnv scenarioOpts emptyFS).2.2.dirs =
      insertDir (getIndicatorsDir listFailEnv.dirEnv) emptyFS.dirs :=
  c5_listing_failure_aborts listFailEnv scenarioOpts emptyFS
    (by decide) (by decide)
    (fun entries hh => by simp [listFailEnv] at hh)

/-- C6: a pass whose listing succeeds emits, in order: one start event
carrying the candidate total, then the per-file progress events (one
per downloaded file — their count equals the number of downloads),
then exactly one complete event carrying the aggregate result, which is
a success with the download count and error list. -/
theorem c6_event_order (env : Env) (opts : Opts) (fs0 : FS) (entries : List TreeEntry)
    (hO : opts.owner ≠ "") (hR : opts.repo ≠ "")
    (hL : env.listing = ListOutcome.tree entries) :
    uiEvents (performDownloadIndicators env opts fs0).2.1 =
      Ev.evStart (entries.filter isIndicatorJsonBlob).length ::
        (loopProgressEvs env.fetchFile (entries.filter isIndicatorJsonBlob).length 0
            (entries.filter isIndicatorJsonBlob) ++
          [Ev.evComplete (performDownloadIndicators env opts fs0).1]) ∧
    (loopProgressEvs env.fetchFile (entries.filter isIndicatorJsonBlob).length 0
        (entries.filter isIndicatorJsonBlob)).length =
      (loopDownloadedPaths env.fetchFile (entries.filter isIndicatorJsonBlob)).length ∧
    (performDownloadIndicators env opts fs0).1 =
      Result.ok (loopDownloadedPaths env.fetchFile (entries.filter isIndicatorJsonBlob)).length
        (loopErrors env.fetchFile (entries.filter isIndicatorJsonBlob))
        (getIndicatorsDir env.dirEnv) := by
  have hcond : ¬(opts.owner = "" ∨ opts.repo = "") := fun hh => hh.elim hO hR
  have huif := uiEvents_loopEvs env.fetchFile opts.owner opts.repo
      (if opts.branch = "" then "main" else opts.branch)
      (entries.filter isIndicatorJsonBlob).length (entries.filter isIndicatorJsonBlob) 0
  simp only [uiEvents] at huif
  simp only [performDownloadIndicators, hL, if_neg hcond, downloadLoop_eq, List.nil_append]
  refine ⟨?_, loopProgressEvs_length _ _ _ _, ?_⟩
  · simp [uiEvents, isUiEvent, List.filter_append, huif]
  · trivial

/-- Witness for C6: the spec's end-to-end scenario — a three-entry tree
with two matching candidates and no failures yields exactly
start(total 2), progress 1/2, progress 2/2, complete(success, 2
downloads, no errors). -/
theorem c6_event_order_witness :
    uiEvents (performDownloadIndicators scenarioEnv scenarioOpts emptyFS).2.1 =
      [Ev.evStart 2,
       Ev.evProgress 1 2 "indicators/a.json",
       Ev.evProgress 2 2 "indicators/b.json",
       Ev.evComplete (Result.ok 2 [] "/ud/indicators")] := by
  have h := c6_event_order scenarioEnv scenarioOpts emptyFS scenarioTree
      (by decide) (by decide) rfl
  exact h.1.trans (by decide)

/-- C9: writing a nonempty version marker `v` during a pass and reading
it back returns the whitespace-trimmed `v` when that is nonempty and
`null` otherwise; an existing but empty marker file and a whitespace-only
marker file both read as `null`, indistinguishable from a missing
marker. -/
theorem c9_marker_roundtrip (env : Env) (opts : Opts) (fs0 : FS) (entries : List TreeEntry)
    (hO : opts.owner ≠ "") (hR : opts.repo ≠ "")
    (hL : env.listing = ListOutcome.tree entries)
    (v : String) (hv : opts.version = some v) (hne : v ≠ "") :
    readInstalledIndicatorVersion ((performDownloadIndicators env opts fs0).2.2.marker) =
      (if jsTrim v = "" then none else some (jsTrim v)) ∧
    readInstalledIndicatorVersion (some "") = none ∧
    readInstalledIndicatorVersion (some "   ") = none ∧
    readInstalledIndicatorVersion none = none := by
  have hcond : ¬(opts.owner = "" ∨ opts.repo = "") := fun hh => hh.elim hO hR
  simp only [performDownloadIndicators, hL, hv, if_neg hcond, if_neg hne, downloadLoop_eq]
  refine ⟨?_, by decide, by decide, ?_⟩ <;> trivial

/-- Witness for C9: a padded version string "  v3  " is written as-is
and reads back as the trimmed "v3". -/
theorem c9_marker_roundtrip_witness :
    readInstalledIndicatorVersion
        ((performDownloadIndicators scenarioEnv ⟨"o", "r", "main", some "  v3  "⟩
            emptyFS).2.2.marker) =
      some "v3" := by
  have h := c9_marker_roundtrip scenarioEnv ⟨"o", "r", "main", some "  v3  "⟩ emptyFS
      scenarioTree (by decide) (by decide) rfl "  v3  " rfl (by decide)
  exact h.1.trans (by decide)

/-- C10: a progress event with the candidate total is in the trace of a
pass exactly when its path is the k-th candidate (0-based) among all
filtered candidates, that candidate's fetch succeeded, and the event's
`current` field is k+1 — the 1-based position among all attempted
candidates, not the count of successful downloads, so failed earlier
candidates make observed `current` values skip numbers. -/
theorem c10_progress_current_position (env : Env) (opts : Opts) (fs0 : FS)
    (entries : List TreeEntry)
    (hO : opts.owner ≠ "") (hR : opts.repo ≠ "")
    (hL : env.listing = ListOutcome.tree entries) (c : Nat) (p : String) :
    (Ev.evProgress c (entries.filter isIndicatorJsonBlob).length p ∈
        (performDownloadIndicators env opts fs0).2.1 ↔
      ∃ k item, (entries.filter isIndicatorJsonBlob).get? k = some item ∧
        p = item.path ∧ c = k + 1 ∧
        ∃ content, env.fetchFile item.path = FetchOutcome.ok content) := by
  have hcond : ¬(opts.owner = "" ∨ opts.repo = "") := fun hh => hh.elim hO hR
  simp only [performDownloadIndicators, hL, if_neg hcond, downloadLoop_eq, List.nil_append]
  simp [List.mem_append, evProgress_mem_loopEvs, loopProgressEvs_mem]

/-- Witness for C10: with the first of two candidates failing, the
sole progress event carries current = 2 while only one file was
downloaded. -/
theorem c10_progress_current_position_witness :
    Ev.evProgress 2 2 "indicators/b.json" ∈
        (performDownloadIndicators oneFailEnv scenarioOpts emptyFS).2.1 ∧
    (performDownloadIndicators oneFailEnv scenarioOpts emptyFS).1 =
      Result.ok 1 [("indicators/a.json", "boom")] "/ud/indicators" := by
  constructor
  · have h := c10_progress_current_position oneFailEnv scenarioOpts emptyFS
        [⟨"indicators/a.json", "blob"⟩, ⟨"indicators/b.json", "blob"⟩]
        (by decide) (by decide) rfl 2 "indicators/b.json"
    have hlen : (([⟨"indicators/a.json", "blob"⟩,
        (⟨"indicators/b.json", "blob"⟩ : TreeEntry)]).filter isIndicatorJsonBlob).length = 2 := by
      decide
    rw [hlen] at h
    exact h.mpr ⟨1, ⟨"indicators/b.json", "blob"⟩, by decide, rfl, rfl, "data", by decide⟩
  · decide

end WorldData
